import Mathlib

/-!
Shallow embedding of the semantic embedding / cache / similarity core of the
orbit-semantic-canvas backend, together with theorems checking the
natural-language specification against the code.

Source files embedded here:
- backend/services/embedding_service.py (feature-to-vector encoder, embedding cache)
- backend/services/redis_service.py (pairwise similarity engine)
- backend/services/claude_service.py (card generation cache, magnet cache key)
- backend/models/schemas.py (pydantic data shapes)

Conventions of the embedding:
- Python floats are modelled exactly: the values written by the encoder are all
  rational, so the pre-normalization vector lives in ℚ; the normalization step
  and cosine similarity (which involve square roots) live in ℝ.
- The md5 hash of the Python standard library is an external pure function; the
  definitions are parameterized by it (as an arbitrary function String to ℕ for
  the integer value of a hexdigest, or String to String for a hexdigest used
  only as an opaque cache-key component).
- I/O calls (Redis, the Anthropic API) are modelled by explicit parameters:
  an oracle function for the LLM, explicit cache states, and outcome values
  for reads and writes that may raise.
-/

namespace Orbit

/-! ## Feature records (embedding_service.py)

The feature dict parsed from the LLM's JSON.  Each field is accessed in the
source via dict.get with a default, so every field is modelled as an Option. -/

structure Features where
  category : Option String
  location_keywords : Option (List String)
  vibe_keywords : Option (List String)
  price_level : Option ℚ
  quality_signal : Option ℚ
  mood : Option String
  time_of_day : Option String
deriving DecidableEq

/-- Python str.lower(): lowercase each character. -/
def pyLower (s : String) : String := ⟨s.data.map Char.toLower⟩

/-- embedding_service.py line 95: the fixed category list. -/
def categories : List String :=
  ["hotel", "flight", "restaurant", "activity", "transit", "note", "other", "unknown"]

/-- embedding_service.py line 119: the fixed mood list. -/
def moods : List String :=
  ["relaxing", "adventurous", "romantic", "family", "cultural", "party", "business", "casual"]

/-- embedding_service.py line 126: the fixed time-of-day list. -/
def times : List String :=
  ["morning", "afternoon", "evening", "night", "anytime", "unknown"]

/-- Lines 96-97: cat = features.get("category", "other").lower();
cat_idx = categories.index(cat) if cat in categories else 7. -/
def catIdx (f : Features) : ℕ :=
  if pyLower (f.category.getD "other") ∈ categories then
    categories.indexOf (pyLower (f.category.getD "other"))
  else 7

/-- Lines 120-121: mood = features.get("mood", "casual").lower();
mood_idx = moods.index(mood) if mood in moods else 7. -/
def moodIdx (f : Features) : ℕ :=
  if pyLower (f.mood.getD "casual") ∈ moods then
    moods.indexOf (pyLower (f.mood.getD "casual"))
  else 7

/-- Lines 127-129: time_of_day = features.get("time_of_day", "anytime").lower();
the block is only entered when time_of_day is in the list (no fallback index). -/
def timeIdx (f : Features) : Option ℕ :=
  if pyLower (f.time_of_day.getD "anytime") ∈ times then
    some (times.indexOf (pyLower (f.time_of_day.getD "anytime")))
  else none

/-- Python str.split() with no arguments: split on whitespace runs, dropping
empty tokens (line 134: raw_text.lower().split()). -/
def pyWords (raw_text : String) : List String :=
  (((pyLower raw_text).data.splitOnP (fun c => c.isWhitespace)).map
    (fun l => (⟨l⟩ : String))).filter (fun w => w ≠ "")

/-! The 256-dimensional vector is built by a sequence of in-place writes on a
numpy array (np.zeros(EMBEDDING_DIM)).  We model the array as a function
ℕ → ℚ updated stepwise; all source writes land in [0, 255], and the final
tolist() reads exactly indices 0..255.  One named stage per commented block
of _features_to_vector. -/

def EMBEDDING_DIM : ℕ := 256

/-- Lines 94-100, category encoding (dims 0-31): one-hot with spread,
for i in range(4): vec[cat_idx * 4 + i] = 1.0. -/
def categoryStage (f : Features) (v : ℕ → ℚ) : ℕ → ℚ :=
  (List.range 4).foldl (fun w i => Function.update w (catIdx f * 4 + i) 1) v

/-- Lines 102-106, location keywords (dims 32-95):
vec[32 + md5(kw.lower()) % 64] += 1.0 for each keyword. -/
def locationStage (md5int : String → ℕ) (f : Features) (v : ℕ → ℚ) : ℕ → ℚ :=
  (f.location_keywords.getD []).foldl
    (fun w kw => Function.update w (32 + md5int (pyLower kw) % 64)
      (w (32 + md5int (pyLower kw) % 64) + 1)) v

/-- Lines 108-112, vibe keywords (dims 96-175):
vec[96 + md5(kw.lower()) % 80] += 1.0 for each keyword. -/
def vibeStage (md5int : String → ℕ) (f : Features) (v : ℕ → ℚ) : ℕ → ℚ :=
  (f.vibe_keywords.getD []).foldl
    (fun w kw => Function.update w (96 + md5int (pyLower kw) % 80)
      (w (96 + md5int (pyLower kw) % 80) + 1)) v

/-- Lines 114-116, numeric features (dims 176-185):
vec[176] = price_level / 5.0; vec[177] = quality_signal / 5.0. -/
def numericStage (f : Features) (v : ℕ → ℚ) : ℕ → ℚ :=
  Function.update (Function.update v 176 ((f.price_level.getD 0) / 5))
    177 ((f.quality_signal.getD 0) / 5)

/-- Lines 118-123, mood encoding (dims 186-209):
for i in range(3): vec[186 + mood_idx * 3 + i] = 1.0. -/
def moodStage (f : Features) (v : ℕ → ℚ) : ℕ → ℚ :=
  (List.range 3).foldl (fun w i => Function.update w (186 + moodIdx f * 3 + i) 1) v

/-- Lines 125-131, time-of-day encoding (dims 210-240): only written when the
value matches the fixed list; for i in range(5): vec[210 + time_idx * 5 + i] = 1.0. -/
def timeStage (f : Features) (v : ℕ → ℚ) : ℕ → ℚ :=
  match timeIdx f with
  | some ti => (List.range 5).foldl (fun w i => Function.update w (210 + ti * 5 + i) 1) v
  | none => v

/-- Lines 133-138, raw text hash (dims 241-255):
vec[241 + md5(word) % 15] += 0.3 for each lowercased whitespace token. -/
def textStage (md5int : String → ℕ) (raw_text : String) (v : ℕ → ℚ) : ℕ → ℚ :=
  (pyWords raw_text).foldl
    (fun w word => Function.update w (241 + md5int word % 15)
      (w (241 + md5int word % 15) + 3 / 10)) v

/-- The pre-normalization vector of _features_to_vector (lines 92-138). -/
def rawVec (md5int : String → ℕ) (f : Features) (raw_text : String) : ℕ → ℚ :=
  textStage md5int raw_text
    (timeStage f
      (moodStage f
        (numericStage f
          (vibeStage md5int f
            (locationStage md5int f
              (categoryStage f (fun _ => 0)))))))

/-- Sum of squared components over the 256 slots of the numpy array
(the square of np.linalg.norm(vec) at line 141). -/
def sumSq (v : ℕ → ℚ) : ℚ := ∑ i ∈ Finset.range EMBEDDING_DIM, v i ^ 2

/-- Lines 140-145: norm = np.linalg.norm(vec); if norm > 0: vec = vec / norm;
return vec.tolist().  The returned value is the list of the 256 entries. -/
noncomputable def _features_to_vector (md5int : String → ℕ) (f : Features)
    (raw_text : String) : List ℝ :=
  if 0 < Real.sqrt ((sumSq (rawVec md5int f raw_text) : ℚ) : ℝ) then
    (List.range EMBEDDING_DIM).map (fun i =>
      (rawVec md5int f raw_text i : ℝ) / Real.sqrt ((sumSq (rawVec md5int f raw_text) : ℚ) : ℝ))
  else (List.range EMBEDDING_DIM).map (fun i => ((rawVec md5int f raw_text i : ℝ)))

/-- Euclidean norm of a list of reals (np.linalg.norm of the returned vector). -/
noncomputable def listNorm (l : List ℝ) : ℝ := Real.sqrt ((l.map (fun x => x ^ 2)).sum)

/-! ## generate_embedding (embedding_service.py lines 19-84)

The Redis cache is modelled as a key-value map; the two failure modes of the
cache layer (an exception in the read block, an exception in the write block)
are explicit Boolean parameters, since in the source both blocks are wrapped
in try/except that swallows every exception.  The Claude feature extraction is
the oracle parameter. -/

/-- Line 30-31: cache_key = "cache:embedding:" + md5(text).hexdigest(). -/
def embeddingCacheKey (md5hex : String → String) (text : String) : String :=
  "cache:embedding:" ++ md5hex text

/-- Lines 28-84 of embedding_service.py.  Returns the vector handed back to the
caller and the cache state after the call.  readFails (resp. writeFails) true
models the read (resp. write) block raising: the source catches the exception
and falls through, so a failed read behaves as a miss and a failed write leaves
the cache untouched.  On a hit the cached JSON vector is returned as-is. -/
noncomputable def generate_embedding (oracle : String → Features) (md5int : String → ℕ)
    (md5hex : String → String) (readFails writeFails : Bool)
    (cache : String → Option (List ℝ)) (text : String) :
    List ℝ × (String → Option (List ℝ)) :=
  match (if readFails then none else cache (embeddingCacheKey md5hex text)) with
  | some vector => (vector, cache)
  | none =>
    (_features_to_vector md5int (oracle text) text,
      if writeFails then cache
      else Function.update cache (embeddingCacheKey md5hex text)
        (some (_features_to_vector md5int (oracle text) text)))

/-! ## Similarity engine (redis_service.py lines 78-126)

The vector store read client.json().get(key, "$.embedding") for one id either
raises (caught, id skipped), returns nothing, or returns the stored vector.
Stored vectors have the durable 256-float shape of the store contract. -/

/-- Outcome of the per-id store read inside the try of lines 92-97. -/
inductive ReadResult where
  | err
  | missing
  | found (v : Fin 256 → ℝ)

/-- A stored vector was successfully retrieved for this id. -/
def ReadResult.isFound : ReadResult → Bool
  | .found _ => true
  | _ => false

/-- The vector retrieved for an id (only meaningful when isFound). -/
noncomputable def foundVec (store : String → ReadResult) (id : String) : Fin 256 → ℝ :=
  match store id with
  | .found v => v
  | _ => fun _ => 0

/-- One result dict {card_a, card_b, similarity} of get_similarity_pairs. -/
structure SimilarityPair where
  card_a : String
  card_b : String
  similarity : ℝ

/-- Python dict assignment d[k] = v preserving insertion order: an existing
key keeps its position and gets the new value, a new key is appended. -/
def dictInsert {α : Type} (d : List (String × α)) (k : String) (v : α) :
    List (String × α) :=
  if d.any (fun e => e.1 = k) then d.map (fun e => if e.1 = k then (k, v) else e)
  else d ++ [(k, v)]

/-- The index pattern of the nested loops at lines 105-106
(for i in range(n): for j in range(i+1, n)): all pairs with i < j,
in order of the outer loop. -/
def offDiag {α : Type} : List α → List (α × α)
  | [] => []
  | x :: xs => (xs.map (fun y => (x, y))) ++ offDiag xs

/-- np.dot of two 256-float vectors (line 111). -/
noncomputable def dot (a b : Fin 256 → ℝ) : ℝ := ∑ i, a i * b i

/-- np.linalg.norm of a 256-float vector (lines 112-113). -/
noncomputable def npNorm (a : Fin 256 → ℝ) : ℝ := Real.sqrt (∑ i, a i ^ 2)

/-- Lines 110-118: cosine similarity with the zero-norm guard. -/
noncomputable def cosineSim (a b : Fin 256 → ℝ) : ℝ :=
  if 0 < npNorm a ∧ 0 < npNorm b then dot a b / (npNorm a * npNorm b) else 0

/-- The body of the per-id retrieval loop (lines 90-97):
embeddings[card_id] = vector when the read returns one, else continue. -/
def collectStep (store : String → ReadResult) (d : List (String × (Fin 256 → ℝ)))
    (card_id : String) : List (String × (Fin 256 → ℝ)) :=
  match store card_id with
  | .found v => dictInsert d card_id v
  | _ => d

/-- Lines 89-97: the full retrieval loop over the requested ids, starting from
the empty dict. -/
def collectEmbeddings (store : String → ReadResult) (card_ids : List String) :
    List (String × (Fin 256 → ℝ)) :=
  card_ids.foldl (collectStep store) []

/-- Dict read embeddings[k] (lines 107-108); total with a default that is
never reached because the pair loop only reads keys of the dict. -/
noncomputable def dictLookup (d : List (String × (Fin 256 → ℝ))) (k : String) :
    Fin 256 → ℝ :=
  ((d.find? (fun e => e.1 = k)).map Prod.snd).getD (fun _ => 0)

/-- Lines 101-126: the pair loop — ids = list(embeddings.keys()), all index
pairs i < j, each scored with the guarded cosine similarity. -/
noncomputable def simPairsOf (embeddings : List (String × (Fin 256 → ℝ))) :
    List SimilarityPair :=
  (offDiag (embeddings.map Prod.fst)).map (fun q =>
    { card_a := q.1, card_b := q.2,
      similarity := cosineSim (dictLookup embeddings q.1) (dictLookup embeddings q.2) })

/-- redis_service.get_similarity_pairs (lines 78-126).  The first component is
the returned pair list; the second is the list of ids whose store key was read
(empty when the store was never contacted). -/
noncomputable def get_similarity_pairs (store : String → ReadResult)
    (card_ids : List String) : List SimilarityPair × List String :=
  if card_ids.length < 2 then ([], [])
  else (simPairsOf (collectEmbeddings store card_ids), card_ids)

/-! Specification-side description of the pair list, following the spec's
words (section 4.3): the ids that have stored vectors, in insertion order over
the given ids (a repeated id keeps its first position, as for a dict key), and
all unordered pairs among them with i < j. -/

/-- Ids with a stored vector, first occurrences in the given order; seen is
the set of ids already emitted. -/
def availAux (store : String → ReadResult) (seen : List String) :
    List String → List String
  | [] => []
  | id :: rest =>
    if (store id).isFound then
      if id ∈ seen then availAux store seen rest
      else id :: availAux store (id :: seen) rest
    else availAux store seen rest

/-- Modelled from the spec (section 4.3): the requested ids filtered for
availability, in insertion order. -/
def availableIds (store : String → ReadResult) (ids : List String) : List String :=
  availAux store [] ids

/-- Modelled from the spec (section 4.3): all unordered pairs (i < j, insertion
order) among the available ids, scored by the guarded cosine similarity of the
stored vectors. -/
noncomputable def similarityPairsSpec (store : String → ReadResult)
    (ids : List String) : List SimilarityPair :=
  (offDiag (availableIds store ids)).map (fun q =>
    { card_a := q.1, card_b := q.2,
      similarity := cosineSim (foundVec store q.1) (foundVec store q.2) })

/-! ## Card generation cache (claude_service.py lines 58-166, schemas.py) -/

/-- A widget value as validated by the pydantic Widget model. -/
inductive WidgetValue where
  | num (q : ℚ)
  | str (s : String)
  | strList (l : List String)
  | bool (b : Bool)
deriving DecidableEq

/-- schemas.py lines 22-31: the Widget model (field names as declared;
min and max are aliases of min_val and max_val). -/
structure Widget where
  type : String
  label : String
  value : Option WidgetValue
  min_val : Option ℚ
  max_val : Option ℚ
  color : Option String
  icon : Option String
deriving DecidableEq

/-- schemas.py lines 39-48: the GeneratedCard model.  These are the only
fields the model declares; in particular there is no time_of_day field. -/
structure GeneratedCard where
  id : String
  title : String
  summary : String
  category : String
  icon : String
  color : String
  widgets : List Widget
  raw_input : String
  semantic_text : String
deriving DecidableEq

/-- A value retrievable from a GeneratedCard attribute. -/
inductive CardAttr where
  | str (s : String)
  | widgets (ws : List Widget)
deriving DecidableEq

/-- Python attribute access on the pydantic GeneratedCard instance: exactly
the fields declared in schemas.py lines 39-48 exist.  Pydantic's default
config silently drops unknown constructor keywords (so the time_of_day=...
argument passed at claude_service.py lines 84 and 141 does not create a
field), and reading any undeclared attribute raises AttributeError, modelled
as none. -/
def GeneratedCard.getattr (c : GeneratedCard) : String → Option CardAttr
  | "id" => some (.str c.id)
  | "title" => some (.str c.title)
  | "summary" => some (.str c.summary)
  | "category" => some (.str c.category)
  | "icon" => some (.str c.icon)
  | "color" => some (.str c.color)
  | "widgets" => some (.widgets c.widgets)
  | "raw_input" => some (.str c.raw_input)
  | "semantic_text" => some (.str c.semantic_text)
  | _ => none

/-- The payload shape cached in the card namespace (the dict literal at
claude_service.py lines 151-160). -/
structure CardPayload where
  title : String
  summary : String
  category : String
  icon : String
  color : String
  time_of_day : String
  widgets : List Widget
  semantic_text : String
deriving DecidableEq

/-- The card data parsed from the LLM JSON response (lines 117, 123-132);
time_of_day is read with card_data.get("time_of_day", "anytime"), so it is an
Option; the widgets are taken as already validated Widget models. -/
structure CardData where
  title : String
  summary : String
  category : String
  icon : String
  color : String
  time_of_day : Option String
  widgets : List Widget
  semantic_text : String
deriving DecidableEq

/-- Lines 134-145: build the GeneratedCard from parsed data.  The call also
passes time_of_day=card_data.get("time_of_day", "anytime"), which pydantic
drops because the model declares no such field. -/
def buildCard (card_id : String) (cd : CardData) (content : String) : GeneratedCard :=
  { id := card_id
    title := cd.title
    summary := cd.summary
    category := cd.category
    icon := cd.icon
    color := cd.color
    widgets := cd.widgets
    raw_input := content
    semantic_text := cd.semantic_text }

/-- Lines 76-88: reconstruct a GeneratedCard from a cached payload, with a
freshly minted id (the passed time_of_day is again dropped by pydantic). -/
def cardFromCache (fresh_id : String) (p : CardPayload) (content : String) : GeneratedCard :=
  { id := fresh_id
    title := p.title
    summary := p.summary
    category := p.category
    icon := p.icon
    color := p.color
    widgets := p.widgets
    raw_input := content
    semantic_text := p.semantic_text }

/-- Lines 149-160: the cache_value dict is built by reading attributes off the
card object.  Evaluating card.time_of_day is part of building the dict; if any
attribute read raises (none), the whole write block raises and is caught at
line 163, so no payload is produced. -/
def cardCacheValue (card : GeneratedCard) : Option CardPayload :=
  match card.getattr "title", card.getattr "summary", card.getattr "category",
      card.getattr "icon", card.getattr "color", card.getattr "time_of_day",
      card.getattr "widgets", card.getattr "semantic_text" with
  | some (.str t), some (.str s), some (.str c), some (.str ic), some (.str co),
      some (.str tod), some (.widgets ws), some (.str st) =>
    some { title := t, summary := s, category := c, icon := ic, color := co,
           time_of_day := tod, widgets := ws, semantic_text := st }
  | _, _, _, _, _, _, _, _ => none

/-- Lines 65-66: cache_key = "cache:card:" + md5(content_type + ":" + content). -/
def cardCacheKey (md5hex : String → String) (content_type content : String) : String :=
  "cache:card:" ++ md5hex (content_type ++ ":" ++ content)

/-- Result of one generate_card call: the returned card, the card-namespace
cache after the call, and whether the Claude API was called. -/
structure GenCardResult where
  card : GeneratedCard
  cache : List (String × CardPayload)
  calledClaude : Bool

/-- claude_service.generate_card (lines 58-166), with the LLM modelled as an
oracle from (content, content_type) to parsed card data and uuid minting
modelled by the fresh_id parameter.  On a cache hit the card is rebuilt from
the payload with the fresh id; on a miss the card is built from the oracle
data and the cache write stores cardCacheValue when building it succeeds
(the except at line 163 otherwise swallows the error and stores nothing). -/
def generate_card (md5hex : String → String) (oracle : String → String → CardData)
    (fresh_id : String) (cache : List (String × CardPayload))
    (content : String) (content_type : String) : GenCardResult :=
  match (cache.find? (fun e => e.1 = cardCacheKey md5hex content_type content)).map
      Prod.snd with
  | some payload =>
    { card := cardFromCache fresh_id payload content, cache := cache, calledClaude := false }
  | none =>
    match cardCacheValue (buildCard fresh_id (oracle content content_type) content) with
    | some payload =>
      { card := buildCard fresh_id (oracle content content_type) content,
        cache := cache ++ [(cardCacheKey md5hex content_type content, payload)],
        calledClaude := true }
    | none =>
      { card := buildCard fresh_id (oracle content content_type) content,
        cache := cache, calledClaude := true }

/-! ## Magnet cache key (claude_service.py lines 179-184) -/

/-- A card dict passed to evaluate_magnet; only the id key matters for the
cache key, read via c.get("id", ""). -/
structure MagnetCard where
  id : Option String
deriving DecidableEq

/-- Python sorted() on strings: ascending lexicographic order (insertionSort
is extensionally equal to any correct sort under a linear order). -/
def pySorted (l : List String) : List String := List.insertionSort (· ≤ ·) l

/-- Lines 179-184: card_ids = sorted(str(c.get("id", "")) for c in cards);
cache_key = "cache:magnet:" + md5(constraint + ":" + ",".join(card_ids)). -/
def magnet_cache_key (md5hex : String → String) (constraint : String)
    (cards : List MagnetCard) : String :=
  let card_ids := pySorted (cards.map (fun c => c.id.getD ""))
  let ids_string := String.intercalate "," card_ids
  "cache:magnet:" ++ md5hex (constraint ++ ":" ++ ids_string)

/-! ## Helper lemmas: the encoder's region discipline -/

/-- A fold of pointwise updates leaves every index it never writes unchanged. -/
theorem foldl_update_apply_of_ne {α : Type} (l : List α) (idx : α → ℕ)
    (val : (ℕ → ℚ) → α → ℚ) (v : ℕ → ℚ) (j : ℕ) (h : ∀ a ∈ l, idx a ≠ j) :
    l.foldl (fun w a => Function.update w (idx a) (val w a)) v j = v j := by
  induction l generalizing v with
  | nil => rfl
  | cons a l ih =>
    rw [List.foldl_cons, ih _ (fun b hb => h b (List.mem_cons_of_mem a hb))]
    exact Function.update_noteq (Ne.symm (h a (List.mem_cons_self a l))) _ _

/-- Writing the constant c on a contiguous block leaves c at every block slot. -/
theorem foldl_range_update_const_apply (start n j : ℕ) (c : ℚ) (v : ℕ → ℚ) :
    j < n →
      (List.range n).foldl (fun w i => Function.update w (start + i) c) v (start + j) = c := by
  induction n generalizing v with
  | zero => intro h; omega
  | succ n ih =>
    intro hj
    rw [List.range_succ, List.foldl_append, List.foldl_cons, List.foldl_nil]
    by_cases hjn : j = n
    · subst hjn; exact Function.update_same _ _ _
    · rw [Function.update_noteq (by omega : start + j ≠ start + n)]
      exact ih _ (by omega)

theorem catIdx_le (f : Features) : catIdx f ≤ 7 := by
  unfold catIdx
  split
  · rename_i h
    have hlt := List.indexOf_lt_length.mpr h
    have hlen : categories.length = 8 := rfl
    omega
  · exact le_refl 7

theorem moodIdx_le (f : Features) : moodIdx f ≤ 7 := by
  unfold moodIdx
  split
  · rename_i h
    have hlt := List.indexOf_lt_length.mpr h
    have hlen : moods.length = 8 := rfl
    omega
  · exact le_refl 7

theorem timeIdx_le (f : Features) (ti : ℕ) (h : timeIdx f = some ti) : ti ≤ 5 := by
  unfold timeIdx at h
  split at h
  · rename_i hmem
    have hlt := List.indexOf_lt_length.mpr hmem
    have hlen : times.length = 6 := rfl
    have hti := Option.some.inj h
    omega
  · exact absurd h (by simp)

theorem categoryStage_apply_of_ne (f : Features) (v : ℕ → ℚ) (j : ℕ)
    (h : ∀ i, i < 4 → catIdx f * 4 + i ≠ j) : categoryStage f v j = v j :=
  foldl_update_apply_of_ne (List.range 4) (fun i => catIdx f * 4 + i) (fun _ _ => 1) v j
    (fun a ha => h a (List.mem_range.mp ha))

theorem categoryStage_block (f : Features) (v : ℕ → ℚ) (i : ℕ) (hi : i < 4) :
    categoryStage f v (catIdx f * 4 + i) = 1 :=
  foldl_range_update_const_apply (catIdx f * 4) 4 i 1 v hi

theorem locationStage_apply (md5int : String → ℕ) (f : Features) (v : ℕ → ℚ) (j : ℕ)
    (hj : j < 32 ∨ 96 ≤ j) : locationStage md5int f v j = v j := by
  unfold locationStage
  exact foldl_update_apply_of_ne (f.location_keywords.getD [])
    (fun kw : String => 32 + md5int (pyLower kw) % 64)
    (fun w (kw : String) => w (32 + md5int (pyLower kw) % 64) + 1) v j
    (fun kw _ => by
      have := Nat.mod_lt (md5int (pyLower kw)) (by norm_num : (0:ℕ) < 64)
      show 32 + md5int (pyLower kw) % 64 ≠ j
      omega)

theorem vibeStage_apply (md5int : String → ℕ) (f : Features) (v : ℕ → ℚ) (j : ℕ)
    (hj : j < 96 ∨ 176 ≤ j) : vibeStage md5int f v j = v j := by
  unfold vibeStage
  exact foldl_update_apply_of_ne (f.vibe_keywords.getD [])
    (fun kw : String => 96 + md5int (pyLower kw) % 80)
    (fun w (kw : String) => w (96 + md5int (pyLower kw) % 80) + 1) v j
    (fun kw _ => by
      have := Nat.mod_lt (md5int (pyLower kw)) (by norm_num : (0:ℕ) < 80)
      show 96 + md5int (pyLower kw) % 80 ≠ j
      omega)

theorem numericStage_apply (f : Features) (v : ℕ → ℚ) (j : ℕ)
    (h1 : j ≠ 176) (h2 : j ≠ 177) : numericStage f v j = v j := by
  unfold numericStage
  rw [Function.update_noteq h2, Function.update_noteq h1]

theorem moodStage_apply (f : Features) (v : ℕ → ℚ) (j : ℕ)
    (hj : j < 186 ∨ 210 ≤ j) : moodStage f v j = v j := by
  unfold moodStage
  exact foldl_update_apply_of_ne (List.range 3) (fun i => 186 + moodIdx f * 3 + i)
    (fun _ _ => 1) v j
    (fun a ha => by
      have h3 := List.mem_range.mp ha
      have h7 := moodIdx_le f
      show 186 + moodIdx f * 3 + a ≠ j
      omega)

theorem timeStage_apply (f : Features) (v : ℕ → ℚ) (j : ℕ)
    (hj : j < 210 ∨ 240 ≤ j) : timeStage f v j = v j := by
  unfold timeStage
  cases hti : timeIdx f with
  | none => rfl
  | some ti =>
    have h5 := timeIdx_le f ti hti
    exact foldl_update_apply_of_ne (List.range 5) (fun i => 210 + ti * 5 + i) (fun _ _ => 1) v j
      (fun a ha => by
        have := List.mem_range.mp ha
        show 210 + ti * 5 + a ≠ j
        omega)

theorem textStage_apply (md5int : String → ℕ) (t : String) (v : ℕ → ℚ) (j : ℕ)
    (hj : j < 241) : textStage md5int t v j = v j := by
  unfold textStage
  exact foldl_update_apply_of_ne (pyWords t)
    (fun word : String => 241 + md5int word % 15)
    (fun w (word : String) => w (241 + md5int word % 15) + 3 / 10) v j
    (fun word _ => by
      have := Nat.mod_lt (md5int word) (by norm_num : (0:ℕ) < 15)
      show 241 + md5int word % 15 ≠ j
      omega)

/-- The category block survives every later stage: the encoder always carries
four components set to 1 before normalization. -/
theorem rawVec_cat_block (md5int : String → ℕ) (f : Features) (t : String) (i : ℕ)
    (hi : i < 4) : rawVec md5int f t (catIdx f * 4 + i) = 1 := by
  have h7 := catIdx_le f
  have hj : catIdx f * 4 + i ≤ 31 := by omega
  unfold rawVec
  rw [textStage_apply _ _ _ _ (by omega)]
  rw [timeStage_apply _ _ _ (Or.inl (by omega))]
  rw [moodStage_apply _ _ _ (Or.inl (by omega))]
  rw [numericStage_apply _ _ _ (by omega) (by omega)]
  rw [vibeStage_apply _ _ _ _ (Or.inl (by omega))]
  rw [locationStage_apply _ _ _ _ (Or.inl (by omega))]
  exact categoryStage_block f _ i hi

/-- With an unmatched time_of_day the whole region dims 210-240 stays zero. -/
theorem rawVec_time_zero (md5int : String → ℕ) (f : Features) (t : String) (j : ℕ)
    (h : timeIdx f = none) (hj : 210 ≤ j) (hj' : j ≤ 240) :
    rawVec md5int f t j = 0 := by
  have h7 := catIdx_le f
  unfold rawVec
  rw [textStage_apply _ _ _ _ (by omega)]
  rw [show timeStage f
      (moodStage f (numericStage f (vibeStage md5int f
        (locationStage md5int f (categoryStage f (fun _ => 0)))))) =
      moodStage f (numericStage f (vibeStage md5int f
        (locationStage md5int f (categoryStage f (fun _ => 0))))) by
    unfold timeStage; rw [h]]
  rw [moodStage_apply _ _ _ (Or.inr (by omega))]
  rw [numericStage_apply _ _ _ (by omega) (by omega)]
  rw [vibeStage_apply _ _ _ _ (Or.inr (by omega))]
  rw [locationStage_apply _ _ _ _ (Or.inr (by omega))]
  exact categoryStage_apply_of_ne f _ j (fun i hi => by omega)

/-- The sum of squares of the pre-normalization vector is always positive
(witnessed by the category block). -/
theorem sumSq_rawVec_pos (md5int : String → ℕ) (f : Features) (t : String) :
    0 < sumSq (rawVec md5int f t) := by
  have h7 := catIdx_le f
  have hlt : catIdx f * 4 < EMBEDDING_DIM := by
    unfold EMBEDDING_DIM; omega
  have h1 : rawVec md5int f t (catIdx f * 4) = 1 := by
    have := rawVec_cat_block md5int f t 0 (by norm_num)
    simpa using this
  unfold sumSq
  refine Finset.sum_pos' (fun i _ => sq_nonneg _) ⟨catIdx f * 4, Finset.mem_range.mpr hlt, ?_⟩
  rw [h1]; norm_num

theorem list_range_map_sum (n : ℕ) (g : ℕ → ℝ) :
    ((List.range n).map g).sum = ∑ i ∈ Finset.range n, g i := by
  induction n with
  | zero => simp
  | succ n ih =>
    rw [List.range_succ, List.map_append, List.sum_append, Finset.sum_range_succ, ih]
    simp

/-- The normalization branch is always taken and yields a unit vector. -/
theorem listNorm_features (md5int : String → ℕ) (f : Features) (t : String) :
    listNorm (_features_to_vector md5int f t) = 1 := by
  have hS := sumSq_rawVec_pos md5int f t
  have hSR : (0:ℝ) < ((sumSq (rawVec md5int f t) : ℚ) : ℝ) := by exact_mod_cast hS
  have hnorm : 0 < Real.sqrt ((sumSq (rawVec md5int f t) : ℚ) : ℝ) := Real.sqrt_pos.mpr hSR
  unfold _features_to_vector listNorm
  rw [if_pos hnorm, List.map_map, list_range_map_sum]
  have hterm : ∀ i ∈ Finset.range EMBEDDING_DIM,
      (((fun x => x ^ 2) ∘ fun i =>
        ((rawVec md5int f t i : ℝ)) / Real.sqrt ((sumSq (rawVec md5int f t) : ℚ) : ℝ)) i)
      = (rawVec md5int f t i : ℝ) ^ 2 / ((sumSq (rawVec md5int f t) : ℚ) : ℝ) := by
    intro i _
    simp only [Function.comp_apply, div_pow, Real.sq_sqrt hSR.le]
  rw [Finset.sum_congr rfl hterm, ← Finset.sum_div]
  have hcast : (∑ i ∈ Finset.range EMBEDDING_DIM, (rawVec md5int f t i : ℝ) ^ 2)
      = ((sumSq (rawVec md5int f t) : ℚ) : ℝ) := by
    unfold sumSq
    push_cast
    rfl
  rw [hcast, div_self (ne_of_gt hSR), Real.sqrt_one]

/-- The returned vector always has a nonzero component. -/
theorem features_vec_nonzero (md5int : String → ℕ) (f : Features) (t : String) :
    ∃ x ∈ _features_to_vector md5int f t, x ≠ 0 := by
  have hS := sumSq_rawVec_pos md5int f t
  have hSR : (0:ℝ) < ((sumSq (rawVec md5int f t) : ℚ) : ℝ) := by exact_mod_cast hS
  have hnorm : 0 < Real.sqrt ((sumSq (rawVec md5int f t) : ℚ) : ℝ) := Real.sqrt_pos.mpr hSR
  have h7 := catIdx_le f
  have hlt : catIdx f * 4 < EMBEDDING_DIM := by unfold EMBEDDING_DIM; omega
  have h1 : rawVec md5int f t (catIdx f * 4) = 1 := by
    have := rawVec_cat_block md5int f t 0 (by norm_num)
    simpa using this
  refine ⟨(rawVec md5int f t (catIdx f * 4) : ℝ) /
      Real.sqrt ((sumSq (rawVec md5int f t) : ℚ) : ℝ), ?_, ?_⟩
  · unfold _features_to_vector
    rw [if_pos hnorm]
    exact List.mem_map.mpr ⟨catIdx f * 4, List.mem_range.mpr hlt, rfl⟩
  · rw [h1]
    push_cast
    exact div_ne_zero one_ne_zero (ne_of_gt hnorm)

theorem features_vec_length (md5int : String → ℕ) (f : Features) (t : String) :
    (_features_to_vector md5int f t).length = 256 := by
  unfold _features_to_vector
  split <;> simp [EMBEDDING_DIM]

/-- A present but unlisted category falls back to index 7. -/
theorem catIdx_of_unknown (f : Features) (c : String) (hc : f.category = some c)
    (h : pyLower c ∉ categories) : catIdx f = 7 := by
  unfold catIdx
  rw [hc]
  simp only [Option.getD_some]
  exact if_neg h

/-- A present but unlisted time_of_day selects no index at all. -/
theorem timeIdx_of_unknown (f : Features) (s : String) (hs : f.time_of_day = some s)
    (h : pyLower s ∉ times) : timeIdx f = none := by
  unfold timeIdx
  rw [hs]
  simp only [Option.getD_some]
  exact if_neg h

/-- Sample feature records used by the concrete witnesses below. -/
def sampleFeatures : Features :=
  { category := some "hotel", location_keywords := some ["paris"],
    vibe_keywords := some ["historic"], price_level := some 3, quality_signal := some 4,
    mood := some "relaxing", time_of_day := some "morning" }

def unknownFeatures : Features :=
  { category := some "zebra", location_keywords := none, vibe_keywords := none,
    price_level := none, quality_signal := none, mood := none, time_of_day := some "dusk" }

def emptyFeatures : Features :=
  { category := none, location_keywords := none, vibe_keywords := none,
    price_level := none, quality_signal := none, mood := none, time_of_day := none }

/-! ## Claim theorems for the encoder -/

/-- C2: the feature-to-vector encoding is deterministic: two invocations of
_features_to_vector on equal feature records and equal raw texts return the
identical 256-length vector; the embedding is a pure function of its inputs
(no hidden state is threaded through any stage). -/
theorem features_to_vector_deterministic (md5int : String → ℕ) (f₁ f₂ : Features)
    (t₁ t₂ : String) (hf : f₁ = f₂) (ht : t₁ = t₂) :
    _features_to_vector md5int f₁ t₁ = _features_to_vector md5int f₂ t₂ ∧
      (_features_to_vector md5int f₁ t₁).length = 256 := by
  subst hf; subst ht
  exact ⟨rfl, features_vec_length md5int f₁ t₁⟩

theorem features_to_vector_deterministic_witness :
    _features_to_vector (fun _ => 0) sampleFeatures "cozy beach bungalow" =
      _features_to_vector (fun _ => 0) sampleFeatures "cozy beach bungalow" ∧
      (_features_to_vector (fun _ => 0) sampleFeatures "cozy beach bungalow").length = 256 :=
  features_to_vector_deterministic (fun _ => 0) sampleFeatures sampleFeatures
    "cozy beach bungalow" "cozy beach bungalow" rfl rfl

/-- C3: for every features record and raw text the returned vector has length
exactly 256, and whenever any component is nonzero its Euclidean norm is 1
(the vector is divided by its norm when the norm is positive; the model is
exact real arithmetic, so "within tolerance" is exact equality). -/
theorem features_to_vector_length_norm (md5int : String → ℕ) (f : Features) (t : String) :
    (_features_to_vector md5int f t).length = 256 ∧
      ((∃ x ∈ _features_to_vector md5int f t, x ≠ 0) →
        listNorm (_features_to_vector md5int f t) = 1) :=
  ⟨features_vec_length md5int f t, fun _ => listNorm_features md5int f t⟩

theorem features_to_vector_length_norm_witness :
    (∃ x ∈ _features_to_vector (fun _ => 0) sampleFeatures "cozy", x ≠ 0) ∧
      (_features_to_vector (fun _ => 0) sampleFeatures "cozy").length = 256 ∧
      listNorm (_features_to_vector (fun _ => 0) sampleFeatures "cozy") = 1 :=
  ⟨features_vec_nonzero (fun _ => 0) sampleFeatures "cozy",
    (features_to_vector_length_norm (fun _ => 0) sampleFeatures "cozy").1,
    (features_to_vector_length_norm (fun _ => 0) sampleFeatures "cozy").2
      (features_vec_nonzero (fun _ => 0) sampleFeatures "cozy")⟩

/-- C9: the fallback policy is asymmetric: a present category value not in the
fixed list writes the width-4 fallback block at index 7 (dims 28-31 set to
1.0 in the pre-normalization vector), while a present time_of_day value not in
the fixed list leaves the whole time region (dims 210-240) all zero. -/
theorem encoder_fallback_asymmetry (md5int : String → ℕ) (f : Features) (t : String) :
    (∀ c, f.category = some c → pyLower c ∉ categories →
      ∀ i, i < 4 → rawVec md5int f t (28 + i) = 1) ∧
    (∀ s, f.time_of_day = some s → pyLower s ∉ times →
      ∀ j, 210 ≤ j → j ≤ 240 → rawVec md5int f t j = 0) := by
  constructor
  · intro c hc hunk i hi
    have h7 : catIdx f = 7 := catIdx_of_unknown f c hc hunk
    have h28 : 28 + i = catIdx f * 4 + i := by rw [h7]
    rw [h28]
    exact rawVec_cat_block md5int f t i hi
  · intro s hs hunk j hj hj'
    exact rawVec_time_zero md5int f t j (timeIdx_of_unknown f s hs hunk) hj hj'

theorem encoder_fallback_asymmetry_witness :
    rawVec (fun _ => 0) unknownFeatures "" 28 = 1 ∧
      rawVec (fun _ => 0) unknownFeatures "" 215 = 0 := by
  obtain ⟨h1, h2⟩ := encoder_fallback_asymmetry (fun _ => 0) unknownFeatures ""
  constructor
  · have := h1 "zebra" rfl (by decide) 0 (by norm_num)
    simpa using this
  · exact h2 "dusk" rfl (by decide) 215 (by norm_num) (by norm_num)

/-- C10 counterexample: the claim says the category region uses fallback index
7 when the category is missing; in the code a missing category defaults to
"other", which is index 6, so for the all-empty record the index-7 block
(dims 28-31) is not written: dim 28 is 0 and the selected index is 6. -/
theorem missing_category_uses_index_six :
    catIdx emptyFeatures = 6 ∧ rawVec (fun _ => 0) emptyFeatures "" 28 = 0 := by
  constructor
  · decide
  · decide

/-- C10 (amended): the zero-vector edge case is unreachable: the category
region unconditionally writes a width-4 block of 1.0 before normalization
(at fallback index 7 when the category is present but unknown; a missing
category defaults to "other", index 6), hence the returned vector always has
unit norm and is never the zero vector. -/
theorem encoder_never_zero_vector (md5int : String → ℕ) (f : Features) (t : String) :
    (∀ i, i < 4 → rawVec md5int f t (catIdx f * 4 + i) = 1) ∧
    (f.category = none → catIdx f = 6) ∧
    (∀ c, f.category = some c → pyLower c ∉ categories → catIdx f = 7) ∧
    listNorm (_features_to_vector md5int f t) = 1 ∧
    (∃ x ∈ _features_to_vector md5int f t, x ≠ 0) := by
  refine ⟨fun i hi => rawVec_cat_block md5int f t i hi, ?_,
    fun c hc h => catIdx_of_unknown f c hc h,
    listNorm_features md5int f t, features_vec_nonzero md5int f t⟩
  intro h
  unfold catIdx
  rw [h]
  decide

theorem encoder_never_zero_vector_witness :
    rawVec (fun _ => 0) emptyFeatures "" (catIdx emptyFeatures * 4 + 0) = 1 ∧
      catIdx emptyFeatures = 6 ∧
      listNorm (_features_to_vector (fun _ => 0) emptyFeatures "") = 1 := by
  obtain ⟨h1, h2, h3, h4, h5⟩ := encoder_never_zero_vector (fun _ => 0) emptyFeatures ""
  exact ⟨h1 0 (by norm_num), h2 rfl, h4⟩

/-! ## Helper lemmas: the similarity engine -/

theorem offDiag_mem {α : Type} (l : List α) (q : α × α) (h : q ∈ offDiag l) :
    q.1 ∈ l ∧ q.2 ∈ l := by
  induction l with
  | nil => simp [offDiag] at h
  | cons x xs ih =>
    unfold offDiag at h
    rcases List.mem_append.mp h with h1 | h2
    · obtain ⟨y, hy, rfl⟩ := List.mem_map.mp h1
      exact ⟨List.mem_cons_self x xs, List.mem_cons_of_mem x hy⟩
    · obtain ⟨hq1, hq2⟩ := ih h2
      exact ⟨List.mem_cons_of_mem x hq1, List.mem_cons_of_mem x hq2⟩

theorem offDiag_eq_nil_of_short {α : Type} (l : List α) (h : l.length ≤ 1) :
    offDiag l = [] := by
  match l with
  | [] => rfl
  | [x] => rfl
  | x :: y :: r => simp at h

/-- availAux only looks at membership in seen, not its order. -/
theorem availAux_congr (store : String → ReadResult) :
    ∀ (ids s₁ s₂ : List String), (∀ x, x ∈ s₁ ↔ x ∈ s₂) →
      availAux store s₁ ids = availAux store s₂ ids := by
  intro ids
  induction ids with
  | nil => intro s₁ s₂ _; rfl
  | cons id rest ih =>
    intro s₁ s₂ hs
    unfold availAux
    by_cases hf : (store id).isFound = true
    · rw [if_pos hf, if_pos hf]
      by_cases hmem : id ∈ s₁
      · rw [if_pos hmem, if_pos ((hs id).mp hmem)]
        exact ih s₁ s₂ hs
      · rw [if_neg hmem, if_neg (fun hh => hmem ((hs id).mpr hh))]
        rw [ih (id :: s₁) (id :: s₂) (fun x => by simp [hs x])]
    · rw [if_neg hf, if_neg hf]
      exact ih s₁ s₂ hs

theorem availAux_length_le (store : String → ReadResult) :
    ∀ (ids seen : List String), (availAux store seen ids).length ≤ ids.length := by
  intro ids
  induction ids with
  | nil => intro seen; simp [availAux]
  | cons id rest ih =>
    intro seen
    unfold availAux
    by_cases hf : (store id).isFound = true
    · rw [if_pos hf]
      by_cases hmem : id ∈ seen
      · rw [if_pos hmem]
        exact le_trans (ih seen) (by simp)
      · rw [if_neg hmem]
        simp only [List.length_cons]
        exact Nat.succ_le_succ (ih (id :: seen))
    · rw [if_neg hf]
      exact le_trans (ih seen) (by simp)

/-- Every id emitted by availAux has a stored vector. -/
theorem availAux_found (store : String → ReadResult) :
    ∀ (ids seen : List String) (a : String), a ∈ availAux store seen ids →
      (store a).isFound = true := by
  intro ids
  induction ids with
  | nil => intro seen a ha; simp [availAux] at ha
  | cons id rest ih =>
    intro seen a ha
    unfold availAux at ha
    by_cases hf : (store id).isFound = true
    · rw [if_pos hf] at ha
      by_cases hmem : id ∈ seen
      · rw [if_pos hmem] at ha
        exact ih seen a ha
      · rw [if_neg hmem] at ha
        rcases List.mem_cons.mp ha with rfl | hh
        · exact hf
        · exact ih (id :: seen) a hh
    · rw [if_neg hf] at ha
      exact ih seen a ha

theorem find?_map_pair (fv : String → (Fin 256 → ℝ)) :
    ∀ (L : List String) (k : String), k ∈ L →
      (L.map (fun a => (a, fv a))).find? (fun e => e.1 = k) = some (k, fv k) := by
  intro L
  induction L with
  | nil => intro k hk; simp at hk
  | cons a L ih =>
    intro k hk
    rw [List.map_cons]
    by_cases hak : a = k
    · subst hak
      rw [List.find?_cons_of_pos _ (by simp)]
    · rw [List.find?_cons_of_neg _ (by simp [hak])]
      refine ih k ?_
      rcases List.mem_cons.mp hk with rfl | h
      · exact absurd rfl hak
      · exact h

theorem dictLookup_map_pair (fv : String → (Fin 256 → ℝ)) (L : List String) (k : String)
    (hk : k ∈ L) : dictLookup (L.map (fun a => (a, fv a))) k = fv k := by
  unfold dictLookup
  rw [find?_map_pair fv L k hk]
  rfl

theorem collectStep_found (store : String → ReadResult) {id : String} {v : Fin 256 → ℝ}
    (h : store id = .found v) (d : List (String × (Fin 256 → ℝ))) :
    collectStep store d id = dictInsert d id v := by
  unfold collectStep
  rw [h]

theorem collectStep_skip (store : String → ReadResult) {id : String}
    (h : (store id).isFound = false) (d : List (String × (Fin 256 → ℝ))) :
    collectStep store d id = d := by
  unfold collectStep
  cases hv : store id with
  | found v => rw [hv] at h; simp [ReadResult.isFound] at h
  | err => rfl
  | missing => rfl

/-- The retrieval loop, started on a dict holding exactly the vectors of seen,
produces the dict of seen extended with the newly available ids. -/
theorem collect_foldl_eq (store : String → ReadResult) :
    ∀ (ids seen : List String),
      ids.foldl (collectStep store) (seen.map (fun k => (k, foundVec store k))) =
        (seen ++ availAux store seen ids).map (fun k => (k, foundVec store k)) := by
  intro ids
  induction ids with
  | nil => intro seen; simp [availAux]
  | cons id rest ih =>
    intro seen
    rw [List.foldl_cons]
    unfold availAux
    cases h : store id with
    | found v =>
      have hfv : foundVec store id = v := by unfold foundVec; rw [h]
      rw [collectStep_found store h,
        if_pos (show (ReadResult.found v).isFound = true from rfl)]
      by_cases hmem : id ∈ seen
      · have hany : ((seen.map (fun k => (k, foundVec store k))).any
            (fun e => e.1 = id)) = true := by
          rw [List.any_eq_true]
          exact ⟨(id, foundVec store id), List.mem_map.mpr ⟨id, hmem, rfl⟩, by simp⟩
        have hins : dictInsert (seen.map (fun k => (k, foundVec store k))) id v
            = seen.map (fun k => (k, foundVec store k)) := by
          unfold dictInsert
          rw [if_pos hany, List.map_map]
          refine List.map_congr_left ?_
          intro a _
          by_cases hai : a = id
          · subst hai
            simp [Function.comp, hfv]
          · simp [Function.comp, hai]
        rw [if_pos hmem, hins]
        exact ih seen
      · have hany : ((seen.map (fun k => (k, foundVec store k))).any
              (fun e => e.1 = id)) = false := by
          rw [Bool.eq_false_iff]
          intro hcon
          rw [List.any_eq_true] at hcon
          obtain ⟨e, he, hpe⟩ := hcon
          obtain ⟨a, ha, rfl⟩ := List.mem_map.mp he
          have haid : a = id := by simpa using hpe
          exact hmem (haid ▸ ha)
        have hins : dictInsert (seen.map (fun k => (k, foundVec store k))) id v
            = (seen ++ [id]).map (fun k => (k, foundVec store k)) := by
          unfold dictInsert
          rw [hany]
          simp only [Bool.false_eq_true, if_false]
          rw [List.map_append, ← hfv]
          rfl
        rw [if_neg hmem, hins, ih (seen ++ [id])]
        rw [availAux_congr store rest (seen ++ [id]) (id :: seen)
          (fun x => by simp [or_comm])]
        simp [List.append_assoc]
    | err =>
      have hskip : (store id).isFound = false := by rw [h]; rfl
      rw [collectStep_skip store hskip, if_neg (by simp [ReadResult.isFound])]
      exact ih seen
    | missing =>
      have hskip : (store id).isFound = false := by rw [h]; rfl
      rw [collectStep_skip store hskip, if_neg (by simp [ReadResult.isFound])]
      exact ih seen

theorem simPairsOf_map_pair (store : String → ReadResult) (L : List String) :
    simPairsOf (L.map (fun k => (k, foundVec store k))) =
      (offDiag L).map (fun q =>
        { card_a := q.1, card_b := q.2,
          similarity := cosineSim (foundVec store q.1) (foundVec store q.2) }) := by
  unfold simPairsOf
  have hids : ∀ M : List String, (M.map (fun k => (k, foundVec store k))).map Prod.fst = M := by
    intro M
    induction M with
    | nil => rfl
    | cons a M ih => simp only [List.map_cons, ih]
  rw [hids L]
  refine List.map_congr_left ?_
  intro q hq
  obtain ⟨h1, h2⟩ := offDiag_mem L q hq
  rw [dictLookup_map_pair (foundVec store) L q.1 h1,
    dictLookup_map_pair (foundVec store) L q.2 h2]

/-- The code's pair list coincides with the spec-side description. -/
theorem gsp_eq_spec (store : String → ReadResult) (ids : List String) :
    (get_similarity_pairs store ids).1 = similarityPairsSpec store ids := by
  unfold get_similarity_pairs
  by_cases hlen : ids.length < 2
  · rw [if_pos hlen]
    have h1 : (availableIds store ids).length ≤ 1 :=
      le_trans (availAux_length_le store ids []) (by omega)
    unfold similarityPairsSpec
    rw [offDiag_eq_nil_of_short _ h1]
    rfl
  · rw [if_neg hlen]
    show simPairsOf (collectEmbeddings store ids) = _
    unfold collectEmbeddings
    have hc := collect_foldl_eq store ids []
    simp only [List.map_nil, List.nil_append] at hc
    rw [hc, simPairsOf_map_pair]
    rfl

theorem cosineSim_bounds (a b : Fin 256 → ℝ) :
    -1 ≤ cosineSim a b ∧ cosineSim a b ≤ 1 := by
  unfold cosineSim
  split
  · rename_i h
    obtain ⟨ha, hb⟩ := h
    have hCS := Finset.sum_mul_sq_le_sq_mul_sq Finset.univ a b
    have habs : |dot a b| ≤ npNorm a * npNorm b := by
      rw [← Real.sqrt_sq_eq_abs]
      unfold npNorm
      rw [← Real.sqrt_mul (Finset.sum_nonneg (fun i _ => sq_nonneg (a i)))]
      exact Real.sqrt_le_sqrt (by unfold dot; exact hCS)
    have hpos : 0 < npNorm a * npNorm b := mul_pos ha hb
    constructor
    · rw [le_div_iff₀ hpos]
      have hn := neg_abs_le (dot a b)
      linarith
    · rw [div_le_one hpos]
      linarith [le_abs_self (dot a b)]
  · norm_num

/-! ## Claim theorems for the similarity engine -/

/-- C4: every similarity score produced by get_similarity_pairs lies in
[-1, 1]; each pair's score is the dot product of the two stored vectors
divided by the product of their norms when both norms are positive, and
exactly 0 when either norm is zero (the guarded branch, so no division by
zero occurs). -/
theorem similarity_score_bounds (store : String → ReadResult) (ids : List String)
    (p : SimilarityPair) (hp : p ∈ (get_similarity_pairs store ids).1) :
    (-1 ≤ p.similarity ∧ p.similarity ≤ 1) ∧
    ∃ va vb, store p.card_a = .found va ∧ store p.card_b = .found vb ∧
      p.similarity = (if 0 < npNorm va ∧ 0 < npNorm vb
        then dot va vb / (npNorm va * npNorm vb) else 0) := by
  rw [gsp_eq_spec] at hp
  unfold similarityPairsSpec at hp
  obtain ⟨q, hq, rfl⟩ := List.mem_map.mp hp
  obtain ⟨h1, h2⟩ := offDiag_mem _ q hq
  have hf1 : (store q.1).isFound = true := availAux_found store ids [] q.1 h1
  have hf2 : (store q.2).isFound = true := availAux_found store ids [] q.2 h2
  obtain ⟨va, hva⟩ : ∃ va, store q.1 = .found va := by
    cases h : store q.1 with
    | found v => exact ⟨v, rfl⟩
    | err => rw [h] at hf1; simp [ReadResult.isFound] at hf1
    | missing => rw [h] at hf1; simp [ReadResult.isFound] at hf1
  obtain ⟨vb, hvb⟩ : ∃ vb, store q.2 = .found vb := by
    cases h : store q.2 with
    | found v => exact ⟨v, rfl⟩
    | err => rw [h] at hf2; simp [ReadResult.isFound] at hf2
    | missing => rw [h] at hf2; simp [ReadResult.isFound] at hf2
  have hfva : foundVec store q.1 = va := by unfold foundVec; rw [hva]
  have hfvb : foundVec store q.2 = vb := by unfold foundVec; rw [hvb]
  refine ⟨cosineSim_bounds _ _, va, vb, hva, hvb, ?_⟩
  show cosineSim (foundVec store q.1) (foundVec store q.2) = _
  rw [hfva, hfvb]
  unfold cosineSim
  rfl

/-- All-ones vector and an always-found store, for the concrete witness. -/
noncomputable def vOnes : Fin 256 → ℝ := fun _ => 1

noncomputable def storeAll : String → ReadResult := fun _ => ReadResult.found vOnes

theorem similarity_score_bounds_witness :
    (-1 ≤ cosineSim vOnes vOnes ∧ cosineSim vOnes vOnes ≤ 1) ∧
    ∃ va vb, storeAll "a" = .found va ∧ storeAll "b" = .found vb ∧
      cosineSim vOnes vOnes = (if 0 < npNorm va ∧ 0 < npNorm vb
        then dot va vb / (npNorm va * npNorm vb) else 0) := by
  have hmem : SimilarityPair.mk "a" "b" (cosineSim vOnes vOnes)
      ∈ (get_similarity_pairs storeAll ["a", "b"]).1 := by
    have hlist : (get_similarity_pairs storeAll ["a", "b"]).1 =
        [SimilarityPair.mk "a" "b" (cosineSim vOnes vOnes)] := rfl
    rw [hlist]
    exact List.mem_singleton.mpr rfl
  exact similarity_score_bounds storeAll ["a", "b"] _ hmem

/-- C5: for fewer than 2 ids, get_similarity_pairs returns the empty pair list
without error, and the vector store is never contacted (second component is
the empty read log). -/
theorem similarity_pairs_degenerate (store : String → ReadResult) (ids : List String)
    (h : ids.length < 2) : get_similarity_pairs store ids = ([], []) := by
  unfold get_similarity_pairs
  rw [if_pos h]

theorem similarity_pairs_degenerate_witness :
    get_similarity_pairs (fun _ => ReadResult.missing) ["solo"] = ([], []) ∧
      get_similarity_pairs (fun _ => ReadResult.missing) [] = ([], []) :=
  ⟨similarity_pairs_degenerate (fun _ => ReadResult.missing) ["solo"] (by decide),
    similarity_pairs_degenerate (fun _ => ReadResult.missing) [] (by decide)⟩

/-- C6: ids whose stored vector is absent or whose per-id read fails are
silently excluded: the returned pairs are exactly all unordered pairs (first
occurrences in the given order, i < j) among the ids with stored vectors,
and the function is total — no exception escapes on behalf of a missing id. -/
theorem similarity_pairs_exclude_missing (store : String → ReadResult)
    (ids : List String) :
    (get_similarity_pairs store ids).1 = similarityPairsSpec store ids :=
  gsp_eq_spec store ids

/-! ## Claim theorems for the caches -/

/-- C7: the magnet cache key depends only on the constraint and the multiset
of card ids: two card lists that are permutations of each other yield the same
key (the ids are sorted before hashing), for any hash function. -/
theorem magnet_cache_key_order_independent (md5hex : String → String)
    (constraint : String) (cards₁ cards₂ : List MagnetCard)
    (hperm : cards₁.Perm cards₂) :
    magnet_cache_key md5hex constraint cards₁ =
      magnet_cache_key md5hex constraint cards₂ := by
  unfold magnet_cache_key
  have hidsperm : (cards₁.map (fun c => c.id.getD "")).Perm
      (cards₂.map (fun c => c.id.getD "")) := hperm.map _
  have hsorted : pySorted (cards₁.map (fun c => c.id.getD "")) =
      pySorted (cards₂.map (fun c => c.id.getD "")) := by
    unfold pySorted
    exact List.eq_of_perm_of_sorted
      (((List.perm_insertionSort (fun a b : String => a ≤ b) _).trans hidsperm).trans
        (List.perm_insertionSort (fun a b : String => a ≤ b) _).symm)
      (List.sorted_insertionSort _ _) (List.sorted_insertionSort _ _)
  rw [hsorted]

theorem magnet_cache_key_order_independent_witness :
    magnet_cache_key (fun s => s) "cheap and cozy"
        [⟨some "x"⟩, ⟨some "y"⟩, ⟨some "z"⟩] =
      magnet_cache_key (fun s => s) "cheap and cozy"
        [⟨some "z"⟩, ⟨some "x"⟩, ⟨some "y"⟩] :=
  magnet_cache_key_order_independent (fun s => s) "cheap and cozy"
    [⟨some "x"⟩, ⟨some "y"⟩, ⟨some "z"⟩] [⟨some "z"⟩, ⟨some "x"⟩, ⟨some "y"⟩]
    (by decide)

/-- C8: a cache-layer failure never reaches the caller of generate_embedding:
if the read raises or misses, the returned vector is the one computed from
the freshly extracted features (for either write outcome), and a raising
write leaves the cache untouched (a no-op). -/
theorem generate_embedding_cache_degrades (oracle : String → Features)
    (md5int : String → ℕ) (md5hex : String → String) (readFails writeFails : Bool)
    (cache : String → Option (List ℝ)) (text : String)
    (h : readFails = true ∨ cache (embeddingCacheKey md5hex text) = none) :
    (generate_embedding oracle md5int md5hex readFails writeFails cache text).1 =
      _features_to_vector md5int (oracle text) text ∧
    (writeFails = true →
      (generate_embedding oracle md5int md5hex readFails writeFails cache text).2 =
        cache) := by
  unfold generate_embedding
  rcases h with h | h
  · subst h
    exact ⟨rfl, fun hw => by subst hw; rfl⟩
  · cases readFails with
    | true => exact ⟨rfl, fun hw => by subst hw; rfl⟩
    | false =>
      rw [show (if (false : Bool) then (none : Option (List ℝ))
          else cache (embeddingCacheKey md5hex text)) = none from h]
      exact ⟨rfl, fun hw => by subst hw; rfl⟩

theorem generate_embedding_cache_degrades_witness :
    (generate_embedding (fun _ => emptyFeatures) (fun _ => 0) (fun s => s) true true
        (fun _ => none) "beach").1 =
      _features_to_vector (fun _ => 0) emptyFeatures "beach" ∧
    (generate_embedding (fun _ => emptyFeatures) (fun _ => 0) (fun s => s) true true
        (fun _ => none) "beach").2 = (fun _ => none) := by
  obtain ⟨h1, h2⟩ := generate_embedding_cache_degrades (fun _ => emptyFeatures)
    (fun _ => 0) (fun s => s) true true (fun _ => none) "beach" (Or.inl rfl)
  exact ⟨h1, h2 rfl⟩

/-- Building the card cache_value dict always raises: it reads
card.time_of_day, and GeneratedCard declares no time_of_day field (the
constructor keyword was silently dropped), so the attribute access fails for
every card. -/
theorem cardCacheValue_none (card : GeneratedCard) : cardCacheValue card = none := rfl

/-- C1 (against the claim — the code has a bug here): generate_card never
stores anything in the card namespace, because building the cache_value dict
at claude_service.py lines 151-160 reads card.time_of_day while the
GeneratedCard model of schemas.py lines 39-48 declares no time_of_day field;
the AttributeError is swallowed at line 163.  Hence after a first call the
cache is unchanged (in particular still empty when it started empty), and a
second call with the identical content and content type misses the cache and
calls the LLM again, contradicting the claimed first-store / second-hit
behaviour. -/
theorem generate_card_cache_never_written (md5hex : String → String)
    (oracle : String → String → CardData) (fid fid₂ content content_type : String)
    (cache : List (String × CardPayload)) :
    (generate_card md5hex oracle fid cache content content_type).cache = cache ∧
    (generate_card md5hex oracle fid₂
        (generate_card md5hex oracle fid [] content content_type).cache
        content content_type).calledClaude = true := by
  constructor
  · unfold generate_card
    cases hf : (cache.find? (fun e =>
        e.1 = cardCacheKey md5hex content_type content)).map Prod.snd with
    | none => rfl
    | some payload => rfl
  · rfl

end Orbit
